import Mathlib

/-!
Shallow embedding of the geocoding resolution engine of the cra-map
repository (src/src/geocoder.py, src/geocode_addresses.py, src/src/config.py).

Python strings are modelled as lists of characters, Python dicts holding the
cache as insertion-ordered association lists, the external geocoding backends
as oracle functions from a query to the outcome of one underlying provider
call, and the observable side effects (rate-limit sleeps, which adapters were
invoked) as an explicit trace.  Coordinates are rationals.
-/

namespace CraMap

/-- Python strings, modelled as lists of characters. -/
abbrev Str := List Char

/-- The `status` values a resolution result can carry
(`geocoder.py` produces `success`, `not_found`, `out_of_bounds`, `error`,
`failed`; `geocode_dataframe` additionally produces `no_address`). -/
inductive Status where
  | success
  | not_found
  | out_of_bounds
  | error
  | no_address
  | failed
deriving DecidableEq, Repr

/-- The `precision` values: `address`, `city`, `failed`; `unknown` is the
default used by `geocode_dataframe` when a cached result lacks the key. -/
inductive Precision where
  | address
  | city
  | failed
  | unknown
deriving DecidableEq, Repr

/-- The `source` tags assigned by `geocode_address`. -/
inductive Source where
  | arcgis
  | nominatim
  | photon
  | google
  | nominatim_city
deriving DecidableEq, Repr

/-- A resolution result dictionary: `status`, optional `latitude`/`longitude`,
optional `precision`, optional `source`, optional `message`
(absent keys are `none`). -/
structure Result where
  status : Status
  latitude : Option ℚ
  longitude : Option ℚ
  precision : Option Precision
  source : Option Source
  message : Option Str
deriving DecidableEq, Repr

/-- A result dictionary holding only a status key. -/
def resOf (s : Status) : Result := ⟨s, none, none, none, none, none⟩

/-- A result dictionary holding a status and a diagnostic message,
as built in the exception handlers of the adapter methods. -/
def errOf (m : Str) : Result := ⟨Status.error, none, none, none, none, some m⟩

/-- The outcome of one underlying `geopy` call: a located position, no
location, or one of the three exception classes distinguished by
`_geocode_with_retry` (`GeocoderTimedOut`/`GeocoderUnavailable`,
`GeocoderServiceError`, any other `Exception`). -/
inductive GeoOutcome where
  | located (lat lon : ℚ)
  | noLocation
  | transientErr (msg : Str)
  | serviceErr (msg : Str)
  | unexpectedErr (msg : Str)

/-- Michigan bounding box, from `config.py`. -/
def MI_LAT_MIN : ℚ := 41
/-- Michigan bounding box, from `config.py`. -/
def MI_LAT_MAX : ℚ := 48
/-- Michigan bounding box, from `config.py`. -/
def MI_LON_MIN : ℚ := -90
/-- Michigan bounding box, from `config.py`. -/
def MI_LON_MAX : ℚ := -82

/-- `GeocodingService._is_valid_michigan_coords`: inclusive bounding-box
check. -/
def is_valid_michigan_coords (lat lon : ℚ) : Bool :=
  (decide (MI_LAT_MIN ≤ lat) && decide (lat ≤ MI_LAT_MAX)) &&
    (decide (MI_LON_MIN ≤ lon) && decide (lon ≤ MI_LON_MAX))

/-- Body shared by `_geocode_with_arcgis`, `_geocode_with_photon` and
`_geocode_with_google`: one provider call, bounding-box validation, the
`not_found` mapping for a missing location, and a catch-all exception
handler producing an `error` result. -/
def adapterCall (o : GeoOutcome) : Result :=
  match o with
  | .located lat lon =>
      if is_valid_michigan_coords lat lon then
        ⟨Status.success, some lat, some lon, none, none, none⟩
      else
        resOf Status.out_of_bounds
  | .noLocation => resOf Status.not_found
  | .transientErr m => errOf m
  | .serviceErr m => errOf m
  | .unexpectedErr m => errOf m

/-- The `for attempt in range(retries + 1)` loop of
`GeocodingService._geocode_with_retry`, with the oracle `f` giving the
outcome of the Nominatim call at each attempt index.  `fuel` is the number
of loop iterations still available (`retries + 1 - attempt`); exhausting it
is the out-of-loop fallthrough `return {'status': 'failed'}`. -/
def retryLoop (f : Nat → GeoOutcome) (retries : Nat) :
    Nat → Nat → Result
  | _attempt, 0 => resOf Status.failed
  | attempt, fuel + 1 =>
      match f attempt with
      | .located lat lon =>
          if is_valid_michigan_coords lat lon then
            ⟨Status.success, some lat, some lon, none, none, none⟩
          else
            resOf Status.out_of_bounds
      | .noLocation => resOf Status.not_found
      | .transientErr m =>
          if attempt < retries then
            retryLoop f retries (attempt + 1) fuel
          else
            errOf m
      | .serviceErr m => errOf m
      | .unexpectedErr m => errOf m

/-- `GeocodingService._geocode_with_retry`, entered at attempt 0 with the
full `range(retries + 1)` budget. -/
def geocode_with_retry (f : Nat → GeoOutcome) (retries : Nat) : Result :=
  retryLoop f retries 0 (retries + 1)

/-- Python `str.split(c)` for a single-character separator. -/
def splitChar (c : Char) : Str → List Str
  | [] => [[]]
  | x :: xs =>
      if x = c then [] :: splitChar c xs
      else
        match splitChar c xs with
        | [] => [[x]]
        | y :: ys => (x :: y) :: ys

/-- Whitespace test used by Python `str.strip()`. -/
def isWS (c : Char) : Bool := c.isWhitespace

/-- Python `str.strip()`: remove leading and trailing whitespace. -/
def pyStrip (s : Str) : Str :=
  ((s.dropWhile isWS).reverse.dropWhile isWS).reverse

/-- Python `s.split(pat)[0]`: the text before the first occurrence of `pat`,
or all of `s` when `pat` does not occur. -/
def takeBefore (pat : Str) : Str → Str
  | [] => []
  | x :: xs =>
      if pat.isPrefixOf (x :: xs) then []
      else x :: takeBefore pat xs

/-- The separator string of `city_state_zip.split(' MI ')`. -/
def miSep : Str := [' ', 'M', 'I', ' ']

/-- `GeocodingService._extract_city`: split on commas; when at least two
fields exist, strip the second, take the text before the first occurrence
of the regional marker and strip it; otherwise return `None`. -/
def extract_city (address : Str) : Option Str :=
  match splitChar ',' address with
  | _ :: p1 :: _ =>
      let city_state_zip := pyStrip p1
      some (pyStrip (takeBefore miSep city_state_zip))
  | _ => none

/-- Association-list lookup, modelling `address in self.cache` /
`self.cache[address]`. -/
def lookupA (k : Str) : List (Str × Result) → Option Result
  | [] => none
  | (k', v) :: rest => if k' = k then some v else lookupA k rest

/-- Python dict assignment `self.cache[address] = result`: update the value
in place when the key exists, otherwise append a new entry. -/
def dictSet (k : Str) (v : Result) (m : List (Str × Result)) :
    List (Str × Result) :=
  if (lookupA k m).isSome then
    m.map (fun p => if p.1 = k then (k, v) else p)
  else
    m ++ [(k, v)]

/-- The mutable state of a `GeocodingService` run: in-memory cache, the
durable cache document on disk, the new-resolution counter
`requests_count`, and the configured checkpoint interval. -/
structure St where
  cache : List (Str × Result)
  durable : List (Str × Result)
  requests_count : Nat
  checkpoint_interval : Nat
deriving DecidableEq, Repr

/-- The external world: for each backend, the outcome of a provider call on a
given query (the Nominatim oracle is additionally indexed by the attempt
number inside one `_geocode_with_retry` call).  `google = none` models a
service constructed without an API key. -/
structure Env where
  arcgis : Str → GeoOutcome
  nominatim : Str → Nat → GeoOutcome
  photon : Str → GeoOutcome
  google : Option (Str → GeoOutcome)

/-- Observable side effects of one `geocode_address` call: whether the
rate-limit sleep ran, and which adapters were invoked, in order
(`nominatim_city` marks the city-fallback Nominatim query). -/
structure Trace where
  slept : Bool
  calls : List Source
deriving DecidableEq, Repr

/-- `GeocodingService._cache_and_return` (also the identical
cache/count/checkpoint epilogue at the end of `geocode_address`):
store the result, bump `requests_count`, and flush the cache to the durable
store when the counter reaches a multiple of the checkpoint interval. -/
def cache_and_return (st : St) (addr : Str) (r : Result) : Result × St :=
  let cache' := dictSet addr r st.cache
  let cnt := st.requests_count + 1
  let durable' := if cnt % st.checkpoint_interval = 0 then cache' else st.durable
  (r, ⟨cache', durable', cnt, st.checkpoint_interval⟩)

/-- The query string `f"{address}, Michigan, USA"`. -/
def fullQuery (addr : Str) : Str := addr ++ (", Michigan, USA").data

/-- The final city-level fallback of `geocode_address` (lines 156-167):
extract the city; on success of the city query tag `precision=city`,
`source=nominatim_city`; on its failure, or when extraction fails, tag
`precision=failed` (keeping the statuses of the failed queries). -/
def city_fallback (env : Env) (st : St) (addr : Str) (lastR : Result)
    (slept : Bool) (baseCalls : List Source) : Result × St × Trace :=
  match extract_city addr with
  | some city =>
      let rc := geocode_with_retry (env.nominatim (fullQuery city)) 2
      let r :=
        if rc.status = Status.success then
          { rc with precision := some Precision.city,
                    source := some Source.nominatim_city }
        else
          { rc with precision := some Precision.failed }
      let p := cache_and_return st addr r
      (p.1, p.2, ⟨slept, baseCalls ++ [Source.nominatim_city]⟩)
  | none =>
      let r := { lastR with precision := some Precision.failed }
      let p := cache_and_return st addr r
      (p.1, p.2, ⟨slept, baseCalls⟩)

/-- `GeocodingService.geocode_address`: cache lookup, rate-limit sleep,
ArcGIS / Nominatim / Photon / (optional) Google in fixed order, then the
city-level fallback, with caching and periodic checkpointing of every fresh
result. -/
def geocode_address (env : Env) (st : St) (addr : Str) : Result × St × Trace :=
  match lookupA addr st.cache with
  | some r => (r, st, ⟨false, []⟩)
  | none =>
      let slept := decide (0 < st.requests_count)
      let q := fullQuery addr
      let r1 := adapterCall (env.arcgis q)
      if r1.status = Status.success then
        let r := { r1 with precision := some Precision.address,
                           source := some Source.arcgis }
        let p := cache_and_return st addr r
        (p.1, p.2, ⟨slept, [Source.arcgis]⟩)
      else
        let r2 := geocode_with_retry (env.nominatim q) 2
        if r2.status = Status.success then
          let r := { r2 with precision := some Precision.address,
                             source := some Source.nominatim }
          let p := cache_and_return st addr r
          (p.1, p.2, ⟨slept, [Source.arcgis, Source.nominatim]⟩)
        else
          let r3 := adapterCall (env.photon q)
          if r3.status = Status.success then
            let r := { r3 with precision := some Precision.address,
                               source := some Source.photon }
            let p := cache_and_return st addr r
            (p.1, p.2, ⟨slept, [Source.arcgis, Source.nominatim, Source.photon]⟩)
          else
            match env.google with
            | some g =>
                let r4 := adapterCall (g q)
                if r4.status = Status.success then
                  let r := { r4 with precision := some Precision.address,
                                     source := some Source.google }
                  let p := cache_and_return st addr r
                  (p.1, p.2,
                    ⟨slept, [Source.arcgis, Source.nominatim, Source.photon,
                             Source.google]⟩)
                else
                  city_fallback env st addr r4 slept
                    [Source.arcgis, Source.nominatim, Source.photon,
                     Source.google]
            | none =>
                city_fallback env st addr r3 slept
                  [Source.arcgis, Source.nominatim, Source.photon]

/-- One output row of `geocode_dataframe`: the added columns. -/
structure RowOut where
  geocode_status : Status
  geocode_precision : Precision
  geocode_source : Option Source
  latitude : Option ℚ
  longitude : Option ℚ
deriving DecidableEq, Repr

/-- How `geocode_dataframe` folds a pipeline result into a row:
`result['status']`, `result.get('precision', 'unknown')`,
`result.get('source', None)`, and coordinates only on `success`. -/
def rowOf (r : Result) : RowOut :=
  ⟨r.status, r.precision.getD Precision.unknown, r.source,
   if r.status = Status.success then r.latitude else none,
   if r.status = Status.success then r.longitude else none⟩

/-- The fixed output row of the `pd.isna(address)` branch of
`geocode_dataframe`. -/
def noAddressRow : RowOut :=
  ⟨Status.no_address, Precision.failed, none, none, none⟩

/-- The body of the `geocode_dataframe` loop for one row.  A row's address is
`none` when `pd.isna` holds for it (missing / NaN); that branch writes the
fixed `no_address` columns and does not touch the pipeline. -/
def stepRow (env : Env) (st : St) (row : Option Str) : RowOut × St × Trace :=
  match row with
  | none => (noAddressRow, st, ⟨false, []⟩)
  | some addr =>
      let p := geocode_address env st addr
      (rowOf p.1, p.2.1, p.2.2)

/-- The `for idx, row in df.iterrows()` loop of `geocode_dataframe`. -/
def runRows (env : Env) (st : St) : List (Option Str) → List RowOut × St × List Trace
  | [] => ([], st, [])
  | row :: rest =>
      let p := stepRow env st row
      let q := runRows env p.2.1 rest
      (p.1 :: q.1, q.2.1, p.2.2 :: q.2.2)

/-- `GeocodingService.geocode_dataframe`: optional test-mode truncation, the
row loop, then the final `_save_cache()`. -/
def geocode_dataframe (env : Env) (st : St) (rows : List (Option Str))
    (test_mode : Bool) (test_limit : Nat) : List RowOut × St × List Trace :=
  let rows' := if test_mode then rows.take test_limit else rows
  let p := runRows env st rows'
  (p.1, { p.2.1 with durable := p.2.1.cache }, p.2.2)

/-- The `main` of `geocode_addresses.py` when a `KeyboardInterrupt` arrives
after `m` rows of the batch have been processed: the interrupt propagates
out of the row loop (skipping the final `_save_cache()` of
`geocode_dataframe`), is caught by the outermost handler, and the process
exits via `sys.exit(0)`.  Returns the exit code and the service state at
the interrupt. -/
def interruptedMain (env : Env) (st : St) (rows : List (Option Str))
    (m : Nat) : Nat × St :=
  (0, (runRows env st (rows.take m)).2.1)

/-- Resolving a list of addresses in order through `geocode_address`,
keeping only the state (the pipeline-level batch fold). -/
def resolveSeq (env : Env) (st : St) : List Str → St
  | [] => st
  | a :: rest => resolveSeq env (geocode_address env st a).2.1 rest

/-- The durable cache file as seen by `_load_cache`: missing, unreadable or
malformed, or readable with some entries. -/
inductive CacheFile where
  | missing
  | corrupt (msg : Str)
  | valid (entries : List (Str × Result))

/-- The `self.cache_file.exists()` check. -/
def fileExists : CacheFile → Bool
  | .missing => false
  | _ => true

/-- The body of the `try` block of `_load_cache`: open and `json.load`, which
either yields the entries or raises. -/
def readJson : CacheFile → Except Str (List (Str × Result))
  | .missing => .error ("missing").data
  | .corrupt m => .error m
  | .valid c => .ok c

/-- `GeocodingService._load_cache`: when the file exists, try to parse it,
degrading to an empty cache on any exception; when it does not exist,
return an empty cache. -/
def load_cache (fs : CacheFile) : List (Str × Result) :=
  if fileExists fs then
    match readJson fs with
    | .ok c => c
    | .error _ => []
  else []

/-! ## Dictionary lemmas -/

/-- A successful lookup exhibits a member of the association list. -/
theorem lookupA_mem {k : Str} {v : Result} :
    ∀ {m : List (Str × Result)}, lookupA k m = some v → (k, v) ∈ m := by
  intro m
  induction m with
  | nil => intro h; simp [lookupA] at h
  | cons p rest ih =>
      obtain ⟨a, b⟩ := p
      intro h
      rw [lookupA] at h
      by_cases hk : a = k
      · rw [if_pos hk] at h
        subst hk
        cases h
        exact List.mem_cons_self _ _
      · rw [if_neg hk] at h
        exact List.mem_cons_of_mem _ (ih h)

theorem lookupA_map_update (k : Str) (v : Result) :
    ∀ m : List (Str × Result), (lookupA k m).isSome →
      lookupA k (m.map (fun p => if p.1 = k then (k, v) else p)) = some v := by
  intro m
  induction m with
  | nil => intro h; simp [lookupA] at h
  | cons p rest ih =>
      obtain ⟨a, b⟩ := p
      intro h
      by_cases hk : a = k
      · simp only [List.map_cons]
        rw [if_pos hk, lookupA, if_pos rfl]
      · rw [lookupA, if_neg hk] at h
        simp only [List.map_cons]
        rw [if_neg hk, lookupA, if_neg hk]
        exact ih h

theorem lookupA_append_new (k : Str) (v : Result) :
    ∀ m : List (Str × Result), lookupA k m = none →
      lookupA k (m ++ [(k, v)]) = some v := by
  intro m
  induction m with
  | nil => intro _; simp [lookupA]
  | cons p rest ih =>
      obtain ⟨a, b⟩ := p
      intro h
      rw [lookupA] at h
      by_cases hk : a = k
      · rw [if_pos hk] at h; exact absurd h (by simp)
      · rw [if_neg hk] at h
        rw [List.cons_append, lookupA, if_neg hk]
        exact ih h

theorem lookupA_map_update_ne (k : Str) (v : Result) {k' : Str} (h : k' ≠ k) :
    ∀ m : List (Str × Result),
      lookupA k' (m.map (fun p => if p.1 = k then (k, v) else p)) =
        lookupA k' m := by
  intro m
  induction m with
  | nil => simp [lookupA]
  | cons p rest ih =>
      obtain ⟨a, b⟩ := p
      have hne : ¬ (k = k') := fun hkk => h hkk.symm
      by_cases hk : a = k
      · simp only [List.map_cons]
        rw [if_pos hk, lookupA, if_neg hne, lookupA, if_neg (hk ▸ hne), ih]
      · simp only [List.map_cons]
        rw [if_neg hk, lookupA, lookupA, ih]

theorem lookupA_append_ne (k : Str) (v : Result) {k' : Str} (h : k' ≠ k) :
    ∀ m : List (Str × Result),
      lookupA k' (m ++ [(k, v)]) = lookupA k' m := by
  intro m
  induction m with
  | nil =>
      have hne : ¬ (k = k') := fun hkk => h hkk.symm
      simp [lookupA, if_neg hne]
  | cons p rest ih =>
      obtain ⟨a, b⟩ := p
      rw [List.cons_append, lookupA, lookupA, ih]

/-- Looking up the key just written into the cache yields the written value. -/
theorem lookupA_dictSet_self (k : Str) (v : Result) (m : List (Str × Result)) :
    lookupA k (dictSet k v m) = some v := by
  unfold dictSet
  by_cases h : (lookupA k m).isSome
  · rw [if_pos h]; exact lookupA_map_update k v m h
  · rw [if_neg h]
    exact lookupA_append_new k v m (Option.not_isSome_iff_eq_none.1 h)

/-- Writing one key leaves the lookup of every other key unchanged. -/
theorem lookupA_dictSet_ne {k' k : Str} (h : k' ≠ k) (v : Result)
    (m : List (Str × Result)) :
    lookupA k' (dictSet k v m) = lookupA k' m := by
  unfold dictSet
  by_cases hs : (lookupA k m).isSome
  · rw [if_pos hs]; exact lookupA_map_update_ne k v h m
  · rw [if_neg hs]; exact lookupA_append_ne k v h m

/-- A key present before a cache write is still present after it. -/
theorem lookupA_dictSet_isSome {k' : Str} {m : List (Str × Result)}
    (h : (lookupA k' m).isSome) (k : Str) (v : Result) :
    (lookupA k' (dictSet k v m)).isSome := by
  by_cases hk : k' = k
  · subst hk; rw [lookupA_dictSet_self]; rfl
  · rw [lookupA_dictSet_ne hk]; exact h

/-- Every entry of the cache after a write is an old entry or the written
pair. -/
theorem mem_dictSet {p : Str × Result} {k : Str} {v : Result}
    {m : List (Str × Result)} (h : p ∈ dictSet k v m) :
    p ∈ m ∨ p = (k, v) := by
  unfold dictSet at h
  by_cases hs : (lookupA k m).isSome
  · rw [if_pos hs] at h
    obtain ⟨q, hq, hfq⟩ := List.mem_map.1 h
    by_cases hqk : q.1 = k
    · right; rw [if_pos hqk] at hfq; exact hfq.symm
    · left; rw [if_neg hqk] at hfq; exact hfq ▸ hq
  · rw [if_neg hs] at h
    rcases List.mem_append.1 h with h' | h'
    · exact Or.inl h'
    · right; simpa using h'

/-! ## State-transition characterization of a fresh resolution -/

/-- The service state after caching a fresh result `r` for `addr`: the cache
gains the entry, the counter is bumped, and the durable store receives the
whole cache exactly when the bumped counter hits the checkpoint interval. -/
def nextSt (st : St) (addr : Str) (r : Result) : St :=
  ⟨dictSet addr r st.cache,
   if (st.requests_count + 1) % st.checkpoint_interval = 0 then
     dictSet addr r st.cache
   else st.durable,
   st.requests_count + 1, st.checkpoint_interval⟩

theorem cache_and_return_eq (st : St) (addr : Str) (r : Result) :
    cache_and_return st addr r = (r, nextSt st addr r) := rfl

/-- The tagging applied to a winning address-level adapter result. -/
def tagRes (r : Result) (s : Source) : Result :=
  { r with precision := some Precision.address, source := some s }

/-- The tagging applied to the city-fallback result. -/
def cityTag (rc : Result) : Result :=
  if rc.status = Status.success then
    { rc with precision := some Precision.city,
              source := some Source.nominatim_city }
  else
    { rc with precision := some Precision.failed }

/-- Cache hit: the cached result is returned unchanged, with no state change,
no sleep and no adapter call. -/
theorem geo_hit {env : Env} {st : St} {addr : Str} {r : Result}
    (h : lookupA addr st.cache = some r) :
    geocode_address env st addr = (r, st, ⟨false, []⟩) := by
  unfold geocode_address; rw [h]

/-- Fresh address, ArcGIS succeeds: its tagged result wins and only ArcGIS is
invoked. -/
theorem geo_a1 {env : Env} {st : St} {addr : Str}
    (hmiss : lookupA addr st.cache = none)
    (h1 : (adapterCall (env.arcgis (fullQuery addr))).status = Status.success) :
    geocode_address env st addr =
      (tagRes (adapterCall (env.arcgis (fullQuery addr))) Source.arcgis,
       nextSt st addr
         (tagRes (adapterCall (env.arcgis (fullQuery addr))) Source.arcgis),
       ⟨decide (0 < st.requests_count), [Source.arcgis]⟩) := by
  simp only [geocode_address, hmiss]
  rw [if_pos h1]
  rfl

/-- Fresh address, ArcGIS fails, Nominatim succeeds: its tagged result wins
and Photon is not invoked. -/
theorem geo_a2 {env : Env} {st : St} {addr : Str}
    (hmiss : lookupA addr st.cache = none)
    (h1 : (adapterCall (env.arcgis (fullQuery addr))).status ≠ Status.success)
    (h2 : (geocode_with_retry (env.nominatim (fullQuery addr)) 2).status =
      Status.success) :
    geocode_address env st addr =
      (tagRes (geocode_with_retry (env.nominatim (fullQuery addr)) 2)
         Source.nominatim,
       nextSt st addr
         (tagRes (geocode_with_retry (env.nominatim (fullQuery addr)) 2)
           Source.nominatim),
       ⟨decide (0 < st.requests_count), [Source.arcgis, Source.nominatim]⟩) := by
  simp only [geocode_address, hmiss]
  rw [if_neg h1, if_pos h2]
  rfl

/-- Fresh address, ArcGIS and Nominatim fail, Photon succeeds. -/
theorem geo_a3 {env : Env} {st : St} {addr : Str}
    (hmiss : lookupA addr st.cache = none)
    (h1 : (adapterCall (env.arcgis (fullQuery addr))).status ≠ Status.success)
    (h2 : (geocode_with_retry (env.nominatim (fullQuery addr)) 2).status ≠
      Status.success)
    (h3 : (adapterCall (env.photon (fullQuery addr))).status = Status.success) :
    geocode_address env st addr =
      (tagRes (adapterCall (env.photon (fullQuery addr))) Source.photon,
       nextSt st addr
         (tagRes (adapterCall (env.photon (fullQuery addr))) Source.photon),
       ⟨decide (0 < st.requests_count),
        [Source.arcgis, Source.nominatim, Source.photon]⟩) := by
  simp only [geocode_address, hmiss]
  rw [if_neg h1, if_neg h2, if_pos h3]
  rfl

/-- Fresh address, the three free adapters fail, Google is configured and
succeeds. -/
theorem geo_a4 {env : Env} {st : St} {addr : Str} {g : Str → GeoOutcome}
    (hmiss : lookupA addr st.cache = none)
    (hg : env.google = some g)
    (h1 : (adapterCall (env.arcgis (fullQuery addr))).status ≠ Status.success)
    (h2 : (geocode_with_retry (env.nominatim (fullQuery addr)) 2).status ≠
      Status.success)
    (h3 : (adapterCall (env.photon (fullQuery addr))).status ≠ Status.success)
    (h4 : (adapterCall (g (fullQuery addr))).status = Status.success) :
    geocode_address env st addr =
      (tagRes (adapterCall (g (fullQuery addr))) Source.google,
       nextSt st addr (tagRes (adapterCall (g (fullQuery addr))) Source.google),
       ⟨decide (0 < st.requests_count),
        [Source.arcgis, Source.nominatim, Source.photon, Source.google]⟩) := by
  simp only [geocode_address, hmiss]
  rw [if_neg h1, if_neg h2, if_neg h3]
  simp only [hg]
  rw [if_pos h4]
  rfl

/-- The result of the last attempted address-level adapter (Google when
configured, otherwise Photon). -/
def lastOf (env : Env) (addr : Str) : Result :=
  match env.google with
  | some g => adapterCall (g (fullQuery addr))
  | none => adapterCall (env.photon (fullQuery addr))

/-- The adapters invoked before the city fallback is reached. -/
def baseCallsOf (env : Env) : List Source :=
  match env.google with
  | some _ => [Source.arcgis, Source.nominatim, Source.photon, Source.google]
  | none => [Source.arcgis, Source.nominatim, Source.photon]

/-- Fresh address, every configured adapter fails: control reaches the city
fallback carrying the last attempted adapter's result. -/
theorem geo_cf {env : Env} {st : St} {addr : Str}
    (hmiss : lookupA addr st.cache = none)
    (h1 : (adapterCall (env.arcgis (fullQuery addr))).status ≠ Status.success)
    (h2 : (geocode_with_retry (env.nominatim (fullQuery addr)) 2).status ≠
      Status.success)
    (h3 : (adapterCall (env.photon (fullQuery addr))).status ≠ Status.success)
    (h4 : ∀ g, env.google = some g →
      (adapterCall (g (fullQuery addr))).status ≠ Status.success) :
    geocode_address env st addr =
      city_fallback env st addr (lastOf env addr)
        (decide (0 < st.requests_count)) (baseCallsOf env) := by
  simp only [geocode_address, hmiss]
  rw [if_neg h1, if_neg h2, if_neg h3]
  cases hg : env.google with
  | none => simp only [lastOf, baseCallsOf, hg]
  | some g =>
      simp only [lastOf, baseCallsOf, hg]
      rw [if_neg (h4 g hg)]

/-- City fallback when city extraction fails: the carried result is returned
with `precision=failed` and no further adapter call. -/
theorem cf_none {env : Env} {st : St} {addr : Str} {lastR : Result}
    {slept : Bool} {base : List Source}
    (hex : extract_city addr = none) :
    city_fallback env st addr lastR slept base =
      ({ lastR with precision := some Precision.failed },
       nextSt st addr { lastR with precision := some Precision.failed },
       ⟨slept, base⟩) := by
  simp only [city_fallback, hex]
  rfl

/-- City fallback when city extraction succeeds: the city-level Nominatim
query runs and its tagged result is cached. -/
theorem cf_some {env : Env} {st : St} {addr city : Str} {lastR : Result}
    {slept : Bool} {base : List Source}
    (hex : extract_city addr = some city) :
    city_fallback env st addr lastR slept base =
      (cityTag (geocode_with_retry (env.nominatim (fullQuery city)) 2),
       nextSt st addr
         (cityTag (geocode_with_retry (env.nominatim (fullQuery city)) 2)),
       ⟨slept, base ++ [Source.nominatim_city]⟩) := by
  simp only [city_fallback, hex]
  rfl

/-- Every fresh resolution stores some result and moves the state along
`nextSt`. -/
theorem geo_fresh {env : Env} {st : St} {addr : Str}
    (hmiss : lookupA addr st.cache = none) :
    ∃ r tr, geocode_address env st addr = (r, nextSt st addr r, tr) := by
  by_cases h1 :
      (adapterCall (env.arcgis (fullQuery addr))).status = Status.success
  · exact ⟨_, _, geo_a1 hmiss h1⟩
  by_cases h2 :
      (geocode_with_retry (env.nominatim (fullQuery addr)) 2).status =
        Status.success
  · exact ⟨_, _, geo_a2 hmiss h1 h2⟩
  by_cases h3 :
      (adapterCall (env.photon (fullQuery addr))).status = Status.success
  · exact ⟨_, _, geo_a3 hmiss h1 h2 h3⟩
  cases hg : env.google with
  | some g =>
      by_cases h4 : (adapterCall (g (fullQuery addr))).status = Status.success
      · exact ⟨_, _, geo_a4 hmiss hg h1 h2 h3 h4⟩
      · have h4' : ∀ g', env.google = some g' →
            (adapterCall (g' (fullQuery addr))).status ≠ Status.success := by
          intro g' hg'
          rw [hg] at hg'
          cases hg'
          exact h4
        have hcf := geo_cf hmiss h1 h2 h3 h4'
        cases hex : extract_city addr with
        | none => exact ⟨_, _, hcf.trans (cf_none hex)⟩
        | some city => exact ⟨_, _, hcf.trans (cf_some hex)⟩
  | none =>
      have h4' : ∀ g', env.google = some g' →
          (adapterCall (g' (fullQuery addr))).status ≠ Status.success := by
        intro g' hg'
        rw [hg] at hg'
        cases hg'
      have hcf := geo_cf hmiss h1 h2 h3 h4'
      cases hex : extract_city addr with
      | none => exact ⟨_, _, hcf.trans (cf_none hex)⟩
      | some city => exact ⟨_, _, hcf.trans (cf_some hex)⟩

/-! ## Result-shape invariants of the adapters -/

/-- The statuses an adapter can actually report. -/
def statusOk (r : Result) : Prop :=
  r.status = Status.success ∨ r.status = Status.not_found ∨
    r.status = Status.out_of_bounds ∨ r.status = Status.error

/-- Shape of every raw adapter result: coordinates present exactly on
success, in-bounds coordinates on success, no precision or source tag yet,
and one of the four adapter statuses. -/
def baseInv (r : Result) : Prop :=
  (r.latitude.isSome ↔ r.status = Status.success) ∧
  (r.longitude.isSome ↔ r.status = Status.success) ∧
  (r.status = Status.success →
    ∃ la lo, r.latitude = some la ∧ r.longitude = some lo ∧
      is_valid_michigan_coords la lo = true) ∧
  r.precision = none ∧ r.source = none ∧ statusOk r

theorem baseInv_resOf_nf : baseInv (resOf Status.not_found) :=
  ⟨by simp [resOf], by simp [resOf], by simp [resOf], rfl, rfl,
    Or.inr (Or.inl rfl)⟩

theorem baseInv_resOf_oob : baseInv (resOf Status.out_of_bounds) :=
  ⟨by simp [resOf], by simp [resOf], by simp [resOf], rfl, rfl,
    Or.inr (Or.inr (Or.inl rfl))⟩

theorem baseInv_errOf (m : Str) : baseInv (errOf m) :=
  ⟨by simp [errOf], by simp [errOf], by simp [errOf], rfl, rfl,
    Or.inr (Or.inr (Or.inr rfl))⟩

theorem baseInv_located (lat lon : ℚ) :
    baseInv (if is_valid_michigan_coords lat lon then
        (⟨Status.success, some lat, some lon, none, none, none⟩ : Result)
      else resOf Status.out_of_bounds) := by
  by_cases hv : is_valid_michigan_coords lat lon
  · rw [if_pos hv]
    exact ⟨by simp, by simp, fun _ => ⟨lat, lon, rfl, rfl, hv⟩, rfl, rfl,
      Or.inl rfl⟩
  · rw [if_neg hv]
    exact baseInv_resOf_oob

theorem baseInv_adapterCall (o : GeoOutcome) : baseInv (adapterCall o) := by
  cases o with
  | located lat lon => exact baseInv_located lat lon
  | noLocation => exact baseInv_resOf_nf
  | transientErr m => exact baseInv_errOf m
  | serviceErr m => exact baseInv_errOf m
  | unexpectedErr m => exact baseInv_errOf m

/-- As long as the fuel matches the remaining `range(retries + 1)`
iterations, the loop returns from one of its own branches, so the result
has the adapter shape and in particular never carries the fallthrough
`failed` status. -/
theorem baseInv_retryLoop (f : Nat → GeoOutcome) (retries : Nat) :
    ∀ fuel attempt, attempt + fuel = retries + 1 → attempt ≤ retries →
      baseInv (retryLoop f retries attempt fuel) := by
  intro fuel
  induction fuel with
  | zero =>
      intro attempt hinv hle
      omega
  | succ n ih =>
      intro attempt hinv hle
      unfold retryLoop
      split
      · exact baseInv_located _ _
      · exact baseInv_resOf_nf
      · by_cases hlt : attempt < retries
        · rw [if_pos hlt]
          exact ih (attempt + 1) (by omega) (by omega)
        · rw [if_neg hlt]
          exact baseInv_errOf _
      · exact baseInv_errOf _
      · exact baseInv_errOf _

/-- The retrying Nominatim resolver always returns an adapter-shaped result. -/
theorem baseInv_gwr (f : Nat → GeoOutcome) (retries : Nat) :
    baseInv (geocode_with_retry f retries) :=
  baseInv_retryLoop f retries (retries + 1) 0 (by omega) (Nat.zero_le retries)

/-- Looking up the address just resolved yields exactly the returned result,
whether the call was a cache hit or a fresh resolution. -/
theorem geo_caches (env : Env) (st : St) (addr : Str) :
    lookupA addr (geocode_address env st addr).2.1.cache =
      some (geocode_address env st addr).1 := by
  cases hl : lookupA addr st.cache with
  | some r => rw [geo_hit hl]; exact hl
  | none =>
      obtain ⟨r, tr, heq⟩ := geo_fresh hl
      rw [heq]
      exact lookupA_dictSet_self addr r st.cache

/-! ## Concrete fixtures used by witnesses and counterexamples -/

/-- Environment where every provider finds nothing. -/
def envNF : Env :=
  ⟨fun _ => GeoOutcome.noLocation, fun _ _ => GeoOutcome.noLocation,
   fun _ => GeoOutcome.noLocation, none⟩

/-- Environment where ArcGIS finds nothing and Nominatim locates an
in-bounds point. -/
def envC1 : Env :=
  ⟨fun _ => GeoOutcome.noLocation, fun _ _ => GeoOutcome.located 43 (-85),
   fun _ => GeoOutcome.noLocation, none⟩

/-- Environment where every provider raises. -/
def envErr : Env :=
  ⟨fun _ => GeoOutcome.transientErr [], fun _ _ => GeoOutcome.serviceErr [],
   fun _ => GeoOutcome.unexpectedErr [], none⟩

/-- A fresh service state with checkpoint interval 100 (the configured
default). -/
def st0 : St := ⟨[], [], 0, 100⟩

/-- A sample street address. -/
def addrA : Str := ("123 Main St, Lansing MI 48933").data

/-- A sample address with no comma, so city extraction fails on it. -/
def addrX : Str := ("X").data

/-! ## Claim theorems -/

/-- C1: for an address not in the cache the pipeline tries ArcGIS, Nominatim,
Photon, then Google (when configured) in this fixed order; each non-success
hands over to the next adapter, and the first success terminates the
pipeline with `precision=address`, `source` the winning adapter, and no
later adapter invoked. -/
theorem C1_fallback_order (env : Env) (st : St) (addr : Str)
    (hmiss : lookupA addr st.cache = none) :
    ((adapterCall (env.arcgis (fullQuery addr))).status = Status.success →
      (geocode_address env st addr).1.precision = some Precision.address ∧
      (geocode_address env st addr).1.source = some Source.arcgis ∧
      (geocode_address env st addr).2.2.calls = [Source.arcgis]) ∧
    ((adapterCall (env.arcgis (fullQuery addr))).status ≠ Status.success →
      (geocode_with_retry (env.nominatim (fullQuery addr)) 2).status =
        Status.success →
      (geocode_address env st addr).1.precision = some Precision.address ∧
      (geocode_address env st addr).1.source = some Source.nominatim ∧
      (geocode_address env st addr).2.2.calls =
        [Source.arcgis, Source.nominatim]) ∧
    ((adapterCall (env.arcgis (fullQuery addr))).status ≠ Status.success →
      (geocode_with_retry (env.nominatim (fullQuery addr)) 2).status ≠
        Status.success →
      (adapterCall (env.photon (fullQuery addr))).status = Status.success →
      (geocode_address env st addr).1.precision = some Precision.address ∧
      (geocode_address env st addr).1.source = some Source.photon ∧
      (geocode_address env st addr).2.2.calls =
        [Source.arcgis, Source.nominatim, Source.photon]) ∧
    (∀ g, env.google = some g →
      (adapterCall (env.arcgis (fullQuery addr))).status ≠ Status.success →
      (geocode_with_retry (env.nominatim (fullQuery addr)) 2).status ≠
        Status.success →
      (adapterCall (env.photon (fullQuery addr))).status ≠ Status.success →
      (adapterCall (g (fullQuery addr))).status = Status.success →
      (geocode_address env st addr).1.precision = some Precision.address ∧
      (geocode_address env st addr).1.source = some Source.google ∧
      (geocode_address env st addr).2.2.calls =
        [Source.arcgis, Source.nominatim, Source.photon, Source.google]) := by
  refine ⟨fun h1 => ?_, fun h1 h2 => ?_, fun h1 h2 h3 => ?_,
    fun g hg h1 h2 h3 h4 => ?_⟩
  · rw [geo_a1 hmiss h1]; exact ⟨rfl, rfl, rfl⟩
  · rw [geo_a2 hmiss h1 h2]; exact ⟨rfl, rfl, rfl⟩
  · rw [geo_a3 hmiss h1 h2 h3]; exact ⟨rfl, rfl, rfl⟩
  · rw [geo_a4 hmiss hg h1 h2 h3 h4]; exact ⟨rfl, rfl, rfl⟩

/-- Witness for C1: in `envC1` (ArcGIS finds nothing, Nominatim locates an
in-bounds point) a fresh address resolves with `source=nominatim`,
`precision=address`, and Photon is never invoked. -/
theorem C1_fallback_order_witness :
    lookupA addrA st0.cache = none ∧
    ((adapterCall (envC1.arcgis (fullQuery addrA))).status ≠ Status.success ∧
     (geocode_with_retry (envC1.nominatim (fullQuery addrA)) 2).status =
       Status.success) ∧
    ((geocode_address envC1 st0 addrA).1.precision = some Precision.address ∧
     (geocode_address envC1 st0 addrA).1.source = some Source.nominatim ∧
     (geocode_address envC1 st0 addrA).2.2.calls =
       [Source.arcgis, Source.nominatim]) :=
  ⟨rfl, ⟨by decide, by decide⟩,
    (C1_fallback_order envC1 st0 addrA rfl).2.1 (by decide) (by decide)⟩

/-- C3: resolving the same address twice in one run returns identical
results; the second call is a pure cache hit with no adapter invocation, no
rate-limit sleep, an unchanged state and an unchanged
`requests_count`. -/
theorem C3_second_resolution_pure_hit (env : Env) (st : St) (addr : Str) :
    (geocode_address env (geocode_address env st addr).2.1 addr).1 =
      (geocode_address env st addr).1 ∧
    (geocode_address env (geocode_address env st addr).2.1 addr).2.1 =
      (geocode_address env st addr).2.1 ∧
    (geocode_address env (geocode_address env st addr).2.1 addr).2.2.calls =
      [] ∧
    (geocode_address env (geocode_address env st addr).2.1 addr).2.2.slept =
      false ∧
    (geocode_address env
        (geocode_address env st addr).2.1 addr).2.1.requests_count =
      (geocode_address env st addr).2.1.requests_count := by
  rw [geo_hit (geo_caches env st addr)]
  exact ⟨rfl, rfl, rfl, rfl, rfl⟩

/-- C7: `_load_cache` is a total function of the file state: a missing file
and a corrupt file both degrade to the empty cache, and a readable file
yields its entries; no file state propagates an exception. -/
theorem C7_load_cache_never_raises (fs : CacheFile) :
    load_cache CacheFile.missing = [] ∧
    (∀ m, load_cache (CacheFile.corrupt m) = []) ∧
    (∀ c, load_cache (CacheFile.valid c) = c) ∧
    load_cache fs =
      (match fs with
       | CacheFile.valid c => c
       | _ => []) := by
  refine ⟨rfl, fun _ => rfl, fun _ => rfl, ?_⟩
  cases fs <;> rfl

/-- C10: for every oracle and every retry budget, the retrying Nominatim
resolver returns from inside its attempt loop with one of the four adapter
statuses; the fallthrough `failed` status is never produced, by it or by
any other adapter. -/
theorem C10_no_failed_status (f : Nat → GeoOutcome) (retries : Nat) :
    ((geocode_with_retry f retries).status = Status.success ∨
     (geocode_with_retry f retries).status = Status.not_found ∨
     (geocode_with_retry f retries).status = Status.out_of_bounds ∨
     (geocode_with_retry f retries).status = Status.error) ∧
    (geocode_with_retry f retries).status ≠ Status.failed ∧
    ∀ o : GeoOutcome, (adapterCall o).status ≠ Status.failed := by
  have h := (baseInv_gwr f retries).2.2.2.2.2
  unfold statusOk at h
  refine ⟨h, ?_, ?_⟩
  · rcases h with h' | h' | h' | h' <;> simp [h']
  · intro o
    have ho := (baseInv_adapterCall o).2.2.2.2.2
    unfold statusOk at ho
    rcases ho with h' | h' | h' | h' <;> simp [h']

/-! ## The ResolutionResult invariant (C2) -/

/-- Invariant of every pipeline-produced result: coordinates are present
exactly on `success`, and `precision=address` entails a successful,
in-bounds result credited to one of the four address-level adapters. -/
def Inv (r : Result) : Prop :=
  (r.latitude.isSome ↔ r.status = Status.success) ∧
  (r.longitude.isSome ↔ r.status = Status.success) ∧
  (r.precision = some Precision.address →
    r.status = Status.success ∧
    (∃ la lo, r.latitude = some la ∧ r.longitude = some lo ∧
      is_valid_michigan_coords la lo = true) ∧
    ∃ s, r.source = some s ∧
      s ∈ [Source.arcgis, Source.nominatim, Source.photon, Source.google])

theorem Inv_tagRes {r : Result} (hb : baseInv r)
    (hsucc : r.status = Status.success) (s : Source)
    (hs : s ∈ [Source.arcgis, Source.nominatim, Source.photon,
      Source.google]) :
    Inv (tagRes r s) :=
  ⟨hb.1, hb.2.1, fun _ => ⟨hsucc, hb.2.2.1 hsucc, s, rfl, hs⟩⟩

theorem Inv_cityTag {rc : Result} (hb : baseInv rc) : Inv (cityTag rc) := by
  unfold cityTag
  by_cases hs : rc.status = Status.success
  · rw [if_pos hs]
    exact ⟨hb.1, hb.2.1, fun hpr => absurd hpr (by simp)⟩
  · rw [if_neg hs]
    exact ⟨hb.1, hb.2.1, fun hpr => absurd hpr (by simp)⟩

theorem Inv_withFailed {r : Result} (hb : baseInv r) :
    Inv { r with precision := some Precision.failed } :=
  ⟨hb.1, hb.2.1, fun hpr => absurd hpr (by simp)⟩

theorem Inv_cache_preserved {addr : Str} {r : Result}
    {m : List (Str × Result)} (hr : Inv r) (hc : ∀ p ∈ m, Inv p.2) :
    ∀ p ∈ dictSet addr r m, Inv p.2 := by
  intro p hp
  rcases mem_dictSet hp with h | h
  · exact hc p h
  · rw [h]; exact hr

/-- C2: every result produced by `geocode_address` — and every cache entry it
leaves behind — carries coordinates exactly when its status is `success`,
and carries `precision=address` only when the full (non-city-degraded)
query succeeded with in-bounds coordinates at one of the four address-level
adapters. -/
theorem C2_result_invariant (env : Env) (st : St) (addr : Str)
    (hc : ∀ p ∈ st.cache, Inv p.2) :
    Inv (geocode_address env st addr).1 ∧
    ∀ p ∈ (geocode_address env st addr).2.1.cache, Inv p.2 := by
  cases hl : lookupA addr st.cache with
  | some r =>
      rw [geo_hit hl]
      exact ⟨hc _ (lookupA_mem hl), hc⟩
  | none =>
      by_cases h1 :
          (adapterCall (env.arcgis (fullQuery addr))).status = Status.success
      · rw [geo_a1 hl h1]
        have hr := Inv_tagRes (baseInv_adapterCall _) h1 Source.arcgis (by decide)
        exact ⟨hr, Inv_cache_preserved hr hc⟩
      by_cases h2 :
          (geocode_with_retry (env.nominatim (fullQuery addr)) 2).status =
            Status.success
      · rw [geo_a2 hl h1 h2]
        have hr := Inv_tagRes (baseInv_gwr _ _) h2 Source.nominatim (by decide)
        exact ⟨hr, Inv_cache_preserved hr hc⟩
      by_cases h3 :
          (adapterCall (env.photon (fullQuery addr))).status = Status.success
      · rw [geo_a3 hl h1 h2 h3]
        have hr := Inv_tagRes (baseInv_adapterCall _) h3 Source.photon (by decide)
        exact ⟨hr, Inv_cache_preserved hr hc⟩
      cases hg : env.google with
      | some g =>
          by_cases h4 :
              (adapterCall (g (fullQuery addr))).status = Status.success
          · rw [geo_a4 hl hg h1 h2 h3 h4]
            have hr := Inv_tagRes (baseInv_adapterCall _) h4 Source.google (by decide)
            exact ⟨hr, Inv_cache_preserved hr hc⟩
          · have h4' : ∀ g', env.google = some g' →
                (adapterCall (g' (fullQuery addr))).status ≠ Status.success :=
              fun g' hg' => by rw [hg] at hg'; cases hg'; exact h4
            rw [geo_cf hl h1 h2 h3 h4']
            cases hex : extract_city addr with
            | none =>
                rw [cf_none hex]
                have hr : Inv { lastOf env addr with
                    precision := some Precision.failed } := by
                  apply Inv_withFailed
                  unfold lastOf
                  rw [hg]
                  exact baseInv_adapterCall _
                exact ⟨hr, Inv_cache_preserved hr hc⟩
            | some city =>
                rw [cf_some hex]
                have hr := Inv_cityTag (baseInv_gwr
                  (env.nominatim (fullQuery city)) 2)
                exact ⟨hr, Inv_cache_preserved hr hc⟩
      | none =>
          have h4' : ∀ g', env.google = some g' →
              (adapterCall (g' (fullQuery addr))).status ≠ Status.success :=
            fun g' hg' => by rw [hg] at hg'; cases hg'
          rw [geo_cf hl h1 h2 h3 h4']
          cases hex : extract_city addr with
          | none =>
              rw [cf_none hex]
              have hr : Inv { lastOf env addr with
                  precision := some Precision.failed } := by
                apply Inv_withFailed
                unfold lastOf
                rw [hg]
                exact baseInv_adapterCall _
              exact ⟨hr, Inv_cache_preserved hr hc⟩
          | some city =>
              rw [cf_some hex]
              have hr := Inv_cityTag (baseInv_gwr
                (env.nominatim (fullQuery city)) 2)
              exact ⟨hr, Inv_cache_preserved hr hc⟩

/-- Witness for C2: a fresh resolution in the all-not-found environment from
an empty cache satisfies the invariant, as does the cache it leaves. -/
theorem C2_result_invariant_witness :
    (∀ p ∈ st0.cache, Inv p.2) ∧
    (Inv (geocode_address envNF st0 addrX).1 ∧
      ∀ p ∈ (geocode_address envNF st0 addrX).2.1.cache, Inv p.2) :=
  ⟨by simp [st0], C2_result_invariant envNF st0 addrX (by simp [st0])⟩

/-! ## Checkpoint bookkeeping along a batch (C4, C5) -/

/-- The checkpoint interval is never modified by a resolution. -/
theorem geo_interval (env : Env) (st : St) (addr : Str) :
    (geocode_address env st addr).2.1.checkpoint_interval =
      st.checkpoint_interval := by
  cases hl : lookupA addr st.cache with
  | some r => rw [geo_hit hl]
  | none => obtain ⟨r, tr, heq⟩ := geo_fresh hl; rw [heq]; rfl

/-- Count and durable-store behaviour of one fresh resolution. -/
theorem geo_fresh_state {env : Env} {st : St} {addr : Str}
    (hmiss : lookupA addr st.cache = none) :
    (geocode_address env st addr).2.1.requests_count =
      st.requests_count + 1 ∧
    ((st.requests_count + 1) % st.checkpoint_interval = 0 →
      (geocode_address env st addr).2.1.durable =
        (geocode_address env st addr).2.1.cache) ∧
    ((st.requests_count + 1) % st.checkpoint_interval ≠ 0 →
      (geocode_address env st addr).2.1.durable = st.durable) := by
  obtain ⟨r, tr, heq⟩ := geo_fresh hmiss
  rw [heq]
  refine ⟨rfl, fun h => ?_, fun h => ?_⟩
  · show (if (st.requests_count + 1) % st.checkpoint_interval = 0 then
        dictSet addr r st.cache else st.durable) = dictSet addr r st.cache
    rw [if_pos h]
  · show (if (st.requests_count + 1) % st.checkpoint_interval = 0 then
        dictSet addr r st.cache else st.durable) = st.durable
    rw [if_neg h]

/-- A key distinct from the resolved address that was absent from the cache
stays absent. -/
theorem geo_none_pres {env : Env} {st : St} {addr k : Str}
    (hk : lookupA k st.cache = none) (hne : k ≠ addr) :
    lookupA k (geocode_address env st addr).2.1.cache = none := by
  cases hl : lookupA addr st.cache with
  | some r => rw [geo_hit hl]; exact hk
  | none =>
      obtain ⟨r, tr, heq⟩ := geo_fresh hl
      rw [heq]
      show lookupA k (dictSet addr r st.cache) = none
      rw [lookupA_dictSet_ne hne]
      exact hk

/-- A key present in the cache stays present across any resolution. -/
theorem geo_isSome_pres {env : Env} {st : St} {addr k : Str}
    (hk : (lookupA k st.cache).isSome) :
    (lookupA k (geocode_address env st addr).2.1.cache).isSome := by
  cases hl : lookupA addr st.cache with
  | some r => rw [geo_hit hl]; exact hk
  | none =>
      obtain ⟨r, tr, heq⟩ := geo_fresh hl
      rw [heq]
      exact lookupA_dictSet_isSome hk addr r

theorem resolveSeq_interval (env : Env) :
    ∀ (addrs : List Str) (st : St),
      (resolveSeq env st addrs).checkpoint_interval =
        st.checkpoint_interval := by
  intro addrs
  induction addrs with
  | nil => intro st; rfl
  | cons a rest ih =>
      intro st
      rw [resolveSeq, ih, geo_interval]

theorem resolveSeq_isSome_pres (env : Env) :
    ∀ (addrs : List Str) (st : St) (k : Str),
      (lookupA k st.cache).isSome →
      (lookupA k (resolveSeq env st addrs).cache).isSome := by
  intro addrs
  induction addrs with
  | nil => intro st k hk; exact hk
  | cons a rest ih =>
      intro st k hk
      rw [resolveSeq]
      exact ih _ k (geo_isSome_pres hk)

theorem resolveSeq_none_pres (env : Env) :
    ∀ (addrs : List Str) (st : St) (k : Str),
      lookupA k st.cache = none → k ∉ addrs →
      lookupA k (resolveSeq env st addrs).cache = none := by
  intro addrs
  induction addrs with
  | nil => intro st k hk _; exact hk
  | cons a rest ih =>
      intro st k hk hnm
      rw [resolveSeq]
      exact ih _ k (geo_none_pres hk (fun h => hnm (h ▸ List.mem_cons_self a rest)))
        (fun h => hnm (List.mem_cons_of_mem a h))

/-- Every resolved address ends up in the in-memory cache. -/
theorem resolveSeq_mem (env : Env) :
    ∀ (addrs : List Str) (st : St) (a : Str), a ∈ addrs →
      (lookupA a (resolveSeq env st addrs).cache).isSome := by
  intro addrs
  induction addrs with
  | nil => intro st a ha; cases ha
  | cons b rest ih =>
      intro st a ha
      rw [resolveSeq]
      rcases List.mem_cons.1 ha with h | h
      · subst h
        apply resolveSeq_isSome_pres
        rw [geo_caches]
        rfl
      · exact ih _ a h

/-- The counter advances by one per fresh resolution. -/
theorem resolveSeq_count (env : Env) :
    ∀ (addrs : List Str) (st : St), addrs.Nodup →
      (∀ a ∈ addrs, lookupA a st.cache = none) →
      (resolveSeq env st addrs).requests_count =
        st.requests_count + addrs.length := by
  intro addrs
  induction addrs with
  | nil => intro st _ _; rfl
  | cons a rest ih =>
      intro st hnd hf
      have hmiss : lookupA a st.cache = none := hf a (List.mem_cons_self a rest)
      have hfrest : ∀ b ∈ rest,
          lookupA b (geocode_address env st a).2.1.cache = none := by
        intro b hb
        have hbne : b ≠ a := fun h =>
          (List.nodup_cons.1 hnd).1 (h ▸ hb)
        exact geo_none_pres (hf b (List.mem_cons_of_mem a hb)) hbne
      rw [resolveSeq, ih _ (List.nodup_cons.1 hnd).2 hfrest,
        (geo_fresh_state hmiss).1]
      simp [Nat.add_assoc, Nat.add_comm 1]

theorem resolveSeq_append (env : Env) :
    ∀ (l1 l2 : List Str) (st : St),
      resolveSeq env st (l1 ++ l2) =
        resolveSeq env (resolveSeq env st l1) l2 := by
  intro l1
  induction l1 with
  | nil => intro l2 st; rfl
  | cons a rest ih =>
      intro l2 st
      rw [List.cons_append, resolveSeq, resolveSeq, ih]

/-- When the fresh resolutions end exactly on a checkpoint boundary, the
durable store holds the whole cache. -/
theorem resolveSeq_flush (env : Env) :
    ∀ (addrs : List Str) (st : St), addrs ≠ [] → addrs.Nodup →
      (∀ a ∈ addrs, lookupA a st.cache = none) →
      (st.requests_count + addrs.length) % st.checkpoint_interval = 0 →
      (resolveSeq env st addrs).durable = (resolveSeq env st addrs).cache := by
  intro addrs
  induction addrs with
  | nil => intro st h; exact absurd rfl h
  | cons a rest ih =>
      intro st _ hnd hf hmod
      have hmiss : lookupA a st.cache = none := hf a (List.mem_cons_self a rest)
      have hfrest : ∀ b ∈ rest,
          lookupA b (geocode_address env st a).2.1.cache = none := by
        intro b hb
        have hbne : b ≠ a := fun h =>
          (List.nodup_cons.1 hnd).1 (h ▸ hb)
        exact geo_none_pres (hf b (List.mem_cons_of_mem a hb)) hbne
      rw [resolveSeq]
      by_cases hrest : rest = []
      · subst hrest
        show (geocode_address env st a).2.1.durable =
          (geocode_address env st a).2.1.cache
        exact (geo_fresh_state hmiss).2.1 (by simpa using hmod)
      · apply ih _ hrest (List.nodup_cons.1 hnd).2 hfrest
        rw [(geo_fresh_state hmiss).1, geo_interval]
        have : st.requests_count + 1 + rest.length =
            st.requests_count + (a :: rest).length := by
          simp [Nat.add_assoc, Nat.add_comm 1]
        rw [this]
        exact hmod

/-- When no checkpoint boundary is crossed, the durable store is untouched. -/
theorem resolveSeq_no_flush (env : Env) :
    ∀ (addrs : List Str) (st : St), addrs.Nodup →
      (∀ a ∈ addrs, lookupA a st.cache = none) →
      (∀ j, 0 < j → j ≤ addrs.length →
        (st.requests_count + j) % st.checkpoint_interval ≠ 0) →
      (resolveSeq env st addrs).durable = st.durable := by
  intro addrs
  induction addrs with
  | nil => intro st _ _ _; rfl
  | cons a rest ih =>
      intro st hnd hf hnf
      have hmiss : lookupA a st.cache = none := hf a (List.mem_cons_self a rest)
      have hfrest : ∀ b ∈ rest,
          lookupA b (geocode_address env st a).2.1.cache = none := by
        intro b hb
        have hbne : b ≠ a := fun h =>
          (List.nodup_cons.1 hnd).1 (h ▸ hb)
        exact geo_none_pres (hf b (List.mem_cons_of_mem a hb)) hbne
      rw [resolveSeq]
      have hstep : (geocode_address env st a).2.1.durable = st.durable :=
        (geo_fresh_state hmiss).2.2
          (hnf 1 Nat.one_pos (by simp))
      rw [← hstep]
      apply ih _ (List.nodup_cons.1 hnd).2 hfrest
      intro j hj hjle
      rw [(geo_fresh_state hmiss).1, geo_interval]
      have : st.requests_count + 1 + j = st.requests_count + (j + 1) := by omega
      rw [this]
      exact hnf (j + 1) (by omega) (by simp; omega)

/-- A fresh service state with checkpoint interval 2, for small checkpoint
scenarios. -/
def stK2 : St := ⟨[], [], 0, 2⟩

/-- A second sample address, distinct from the others. -/
def addrB : Str := ("456 Oak Ave, Detroit MI 48201").data

/-- C4: starting from a zero counter, resolving a multiple of K fresh
addresses (K = the checkpoint interval) ends exactly on a checkpoint, so
the durable cache document equals the in-memory cache and contains every
resolved address — in particular, after exactly K fresh resolutions all K
entries are durable even if the process is killed before the next one. -/
theorem C4_checkpoint_durability (env : Env) (st : St) (addrs : List Str)
    (j K : Nat) (hK : 0 < K) (hj : 0 < j)
    (hKi : st.checkpoint_interval = K) (hc0 : st.requests_count = 0)
    (hlen : addrs.length = j * K) (hnd : addrs.Nodup)
    (hf : ∀ a ∈ addrs, lookupA a st.cache = none) :
    (resolveSeq env st addrs).durable = (resolveSeq env st addrs).cache ∧
    ∀ a ∈ addrs, (lookupA a (resolveSeq env st addrs).durable).isSome := by
  have hne : addrs ≠ [] := by
    intro h
    rw [h] at hlen
    simp at hlen
    rcases hlen with h' | h' <;> omega
  have hflush := resolveSeq_flush env addrs st hne hnd hf
    (by rw [hc0, hKi, hlen, Nat.zero_add, Nat.mul_mod_left])
  refine ⟨hflush, fun a ha => ?_⟩
  rw [hflush]
  exact resolveSeq_mem env addrs st a ha

/-- Witness for C4: two fresh addresses with checkpoint interval 2 end on a
checkpoint; both entries are durable. -/
theorem C4_checkpoint_durability_witness :
    (0 < 2 ∧ 0 < 1 ∧ stK2.checkpoint_interval = 2 ∧
      stK2.requests_count = 0 ∧ ([addrA, addrB] : List Str).length = 1 * 2 ∧
      ([addrA, addrB] : List Str).Nodup ∧
      ∀ a ∈ ([addrA, addrB] : List Str), lookupA a stK2.cache = none) ∧
    ((resolveSeq envNF stK2 [addrA, addrB]).durable =
      (resolveSeq envNF stK2 [addrA, addrB]).cache ∧
     ∀ a ∈ ([addrA, addrB] : List Str),
       (lookupA a (resolveSeq envNF stK2 [addrA, addrB]).durable).isSome) :=
  ⟨⟨by decide, by decide, by decide, by decide, by decide, by decide,
    by decide⟩,
   C4_checkpoint_durability envNF stK2 [addrA, addrB] 1 2 (by decide)
     (by decide) (by decide) (by decide) (by decide) (by decide) (by decide)⟩

/-- The state component of the batch loop over all-present rows is the
pipeline-level fold. -/
theorem runRows_state_map_some (env : Env) :
    ∀ (addrs : List Str) (st : St),
      (runRows env st (addrs.map some)).2.1 = resolveSeq env st addrs := by
  intro addrs
  induction addrs with
  | nil => intro st; rfl
  | cons a rest ih =>
      intro st
      rw [List.map_cons, runRows, resolveSeq]
      exact ih _

/-- C5 counterexample: checkpoint interval 2, one completed resolution, then
a `KeyboardInterrupt`.  The handler exits 0 without any final cache flush,
so the completed resolution is in the in-memory cache but NOT in the
durable cache document — contradicting the claim that the durable cache
already reflects every resolution completed so far. -/
theorem C5_counterexample :
    (interruptedMain envNF stK2 [some addrA] 1).1 = 0 ∧
    (lookupA addrA (interruptedMain envNF stK2 [some addrA] 1).2.cache).isSome
      = true ∧
    lookupA addrA (interruptedMain envNF stK2 [some addrA] 1).2.durable =
      none := by
  decide

/-- C5 (amended): on a `KeyboardInterrupt` caught at the outermost run loop
after `m` completed fresh resolutions, the exit code is 0, but no final
flush is performed: the durable cache document is exactly the in-memory
cache as of the last checkpoint (the largest multiple of the checkpoint
interval not exceeding `m`), while all `m` completed resolutions are
present in the in-memory cache. -/
theorem C5_interrupt_last_checkpoint (env : Env) (st : St)
    (addrs : List Str) (K m : Nat) (hK : 0 < K)
    (hKi : st.checkpoint_interval = K) (hc0 : st.requests_count = 0)
    (hd0 : st.durable = st.cache) (hnd : addrs.Nodup)
    (hf : ∀ a ∈ addrs, lookupA a st.cache = none)
    (hm : m ≤ addrs.length) :
    (interruptedMain env st (addrs.map some) m).1 = 0 ∧
    (interruptedMain env st (addrs.map some) m).2.durable =
      (resolveSeq env st (addrs.take (m / K * K))).cache ∧
    ∀ a ∈ addrs.take m,
      (lookupA a (interruptedMain env st (addrs.map some) m).2.cache).isSome
      := by
  have hstate : (interruptedMain env st (addrs.map some) m).2 =
      resolveSeq env st (addrs.take m) := by
    show (runRows env st ((addrs.map some).take m)).2.1 = _
    rw [← List.map_take, runRows_state_map_some]
  obtain ⟨q, hqdef⟩ : ∃ q, q = m / K * K := ⟨_, rfl⟩
  rw [← hqdef]
  have hq : q ≤ m := hqdef ▸ Nat.div_mul_le_self m K
  have hqmod : q % K = 0 := by rw [hqdef]; exact Nat.mul_mod_left _ _
  have hsub : m - q < K := by
    have h1 := Nat.mod_add_div' m K
    have h2 : m % K < K := Nat.mod_lt m hK
    rw [hqdef]
    omega
  have hqm : q ≤ addrs.length := le_trans hq hm
  have hnd' : (addrs.take m).Nodup := (List.take_sublist m addrs).nodup hnd
  have hf' : ∀ a ∈ addrs.take m, lookupA a st.cache = none := fun a ha =>
    hf a (List.mem_of_mem_take ha)
  have hsplit : addrs.take m = addrs.take q ++ (addrs.take m).drop q := by
    conv_lhs => rw [← List.take_append_drop q (addrs.take m)]
    rw [List.take_take, min_eq_left hq]
  -- state at the last checkpoint
  have hst1 : (resolveSeq env st (addrs.take q)).durable =
      (resolveSeq env st (addrs.take q)).cache := by
    by_cases hq0 : q = 0
    · rw [hq0]
      exact hd0
    · apply resolveSeq_flush env _ st
      · have hlq : (addrs.take q).length = q := by
          rw [List.length_take, min_eq_left hqm]
        intro h
        rw [h] at hlq
        simp at hlq
        exact hq0 hlq.symm
      · exact (List.take_sublist q addrs).nodup hnd
      · exact fun a ha => hf a (List.mem_of_mem_take ha)
      · rw [hc0, hKi, Nat.zero_add, List.length_take, min_eq_left hqm]
        exact hqmod
  have hcnt1 : (resolveSeq env st (addrs.take q)).requests_count = q := by
    rw [resolveSeq_count env _ st ((List.take_sublist q addrs).nodup hnd)
      (fun a ha => hf a (List.mem_of_mem_take ha)), hc0, Nat.zero_add,
      List.length_take, min_eq_left hqm]
  have hint1 : (resolveSeq env st (addrs.take q)).checkpoint_interval = K := by
    rw [resolveSeq_interval, hKi]
  -- the tail after the last checkpoint crosses no further boundary
  have htail : (resolveSeq env (resolveSeq env st (addrs.take q))
      ((addrs.take m).drop q)).durable =
        (resolveSeq env st (addrs.take q)).durable := by
    apply resolveSeq_no_flush
    · exact ((List.drop_sublist q (addrs.take m)).nodup hnd')
    · intro b hb
      have hbm : b ∈ addrs.take m := List.mem_of_mem_drop hb
      have hbq : b ∉ addrs.take q := by
        intro hbq
        have : ¬ (addrs.take m).Nodup := by
          rw [hsplit]
          intro hndapp
          exact (List.disjoint_of_nodup_append hndapp) hbq hb
        exact this hnd'
      exact resolveSeq_none_pres env _ st b (hf' b hbm) hbq
    · intro i hi hile
      rw [hcnt1, hint1]
      have hlen : ((addrs.take m).drop q).length = m - q := by
        rw [List.length_drop, List.length_take, min_eq_left hm]
      rw [hlen] at hile
      have hiK : i < K := by omega
      rw [hqdef, Nat.add_comm, Nat.add_mul_mod_self_right,
        Nat.mod_eq_of_lt hiK]
      omega
  refine ⟨rfl, ?_, ?_⟩
  · rw [hstate, hsplit, resolveSeq_append, htail, hst1]
  · intro a ha
    rw [hstate]
    exact resolveSeq_mem env _ st a ha

/-- Witness for the amended C5: three fresh addresses, checkpoint interval 2,
interrupt after all three; the durable cache is the cache after the first
two resolutions and all three are in memory. -/
theorem C5_interrupt_last_checkpoint_witness :
    (0 < 2 ∧ stK2.checkpoint_interval = 2 ∧ stK2.requests_count = 0 ∧
      stK2.durable = stK2.cache ∧ ([addrA, addrB, addrX] : List Str).Nodup ∧
      (∀ a ∈ ([addrA, addrB, addrX] : List Str),
        lookupA a stK2.cache = none) ∧
      3 ≤ ([addrA, addrB, addrX] : List Str).length) ∧
    ((interruptedMain envNF stK2 ([addrA, addrB, addrX].map some) 3).1 = 0 ∧
     (interruptedMain envNF stK2 ([addrA, addrB, addrX].map some) 3).2.durable
       = (resolveSeq envNF stK2
           (([addrA, addrB, addrX] : List Str).take (3 / 2 * 2))).cache ∧
     ∀ a ∈ ([addrA, addrB, addrX] : List Str).take 3,
       (lookupA a (interruptedMain envNF stK2
         ([addrA, addrB, addrX].map some) 3).2.cache).isSome) :=
  ⟨⟨by decide, by decide, by decide, by decide, by decide, by decide,
    by decide⟩,
   C5_interrupt_last_checkpoint envNF stK2 [addrA, addrB, addrX] 2 3
     (by decide) (by decide) (by decide) (by decide) (by decide) (by decide)
     (by decide)⟩

/-! ## The Failed terminal state (C6) -/

/-- C6 counterexample: with every adapter raising (hence reporting `error`)
and an address without a comma (so city extraction fails), the pipeline
result keeps the last adapter's `error` status — it is NOT `not_found` as
the claim states. -/
theorem C6_counterexample :
    (adapterCall (envErr.arcgis (fullQuery addrX))).status ≠ Status.success ∧
    (geocode_with_retry (envErr.nominatim (fullQuery addrX)) 2).status ≠
      Status.success ∧
    (adapterCall (envErr.photon (fullQuery addrX))).status ≠ Status.success ∧
    envErr.google.isNone = true ∧
    extract_city addrX = none ∧
    lookupA addrX st0.cache = none ∧
    (geocode_address envErr st0 addrX).1.precision = some Precision.failed ∧
    (geocode_address envErr st0 addrX).1.latitude = none ∧
    (geocode_address envErr st0 addrX).1.status = Status.error ∧
    (geocode_address envErr st0 addrX).1.status ≠ Status.not_found := by
  decide

/-- C6 (amended): when every configured adapter returns a non-success status
and city extraction fails, the result has no coordinates and
`precision=failed`, and its `status` retains the last attempted adapter's
failure status (Google's when configured, otherwise Photon's) — which is
`not_found` only when that adapter reported `not_found`. -/
theorem C6_failed_keeps_last_status (env : Env) (st : St) (addr : Str)
    (hmiss : lookupA addr st.cache = none)
    (hex : extract_city addr = none)
    (h1 : (adapterCall (env.arcgis (fullQuery addr))).status ≠ Status.success)
    (h2 : (geocode_with_retry (env.nominatim (fullQuery addr)) 2).status ≠
      Status.success)
    (h3 : (adapterCall (env.photon (fullQuery addr))).status ≠ Status.success)
    (h4 : ∀ g, env.google = some g →
      (adapterCall (g (fullQuery addr))).status ≠ Status.success) :
    (geocode_address env st addr).1.latitude = none ∧
    (geocode_address env st addr).1.longitude = none ∧
    (geocode_address env st addr).1.precision = some Precision.failed ∧
    (geocode_address env st addr).1.status = (lastOf env addr).status := by
  have hbase : baseInv (lastOf env addr) := by
    unfold lastOf
    cases env.google with
    | some g => exact baseInv_adapterCall _
    | none => exact baseInv_adapterCall _
  have hns : (lastOf env addr).status ≠ Status.success := by
    unfold lastOf
    cases hg : env.google with
    | some g => exact h4 g hg
    | none => exact h3
  rw [geo_cf hmiss h1 h2 h3 h4, cf_none hex]
  refine ⟨?_, ?_, rfl, rfl⟩
  · show (lastOf env addr).latitude = none
    rw [← Option.not_isSome_iff_eq_none]
    intro hsome
    exact hns (hbase.1.mp hsome)
  · show (lastOf env addr).longitude = none
    rw [← Option.not_isSome_iff_eq_none]
    intro hsome
    exact hns (hbase.2.1.mp hsome)

/-- Witness for the amended C6, at the all-error environment and a
comma-free address. -/
theorem C6_failed_keeps_last_status_witness :
    (lookupA addrX st0.cache = none ∧ extract_city addrX = none) ∧
    ((geocode_address envErr st0 addrX).1.latitude = none ∧
     (geocode_address envErr st0 addrX).1.longitude = none ∧
     (geocode_address envErr st0 addrX).1.precision = some Precision.failed ∧
     (geocode_address envErr st0 addrX).1.status =
       (lastOf envErr addrX).status) :=
  ⟨⟨rfl, by decide⟩,
   C6_failed_keeps_last_status envErr st0 addrX rfl (by decide) (by decide)
     (by decide) (by decide) (fun g hg => absurd hg (by simp [envErr]))⟩

/-! ## Batch row handling (C8) -/

theorem runRows_length (env : Env) :
    ∀ (rows : List (Option Str)) (st : St),
      (runRows env st rows).1.length = rows.length ∧
      (runRows env st rows).2.2.length = rows.length := by
  intro rows
  induction rows with
  | nil => intro st; exact ⟨rfl, rfl⟩
  | cons row rest ih =>
      intro st
      rw [runRows]
      exact ⟨by simp [(ih _).1], by simp [(ih _).2]⟩

theorem runRows_none_get (env : Env) :
    ∀ (rows : List (Option Str)) (st : St) (i : Nat),
      rows.get? i = some none →
      (runRows env st rows).1.get? i = some noAddressRow ∧
      (runRows env st rows).2.2.get? i = some ⟨false, []⟩ := by
  intro rows
  induction rows with
  | nil => intro st i h; simp at h
  | cons row rest ih =>
      intro st i h
      cases i with
      | zero =>
          have hrow : row = none := by simpa using h
          subst hrow
          exact ⟨rfl, rfl⟩
      | succ n =>
          have hn : rest.get? n = some none := by simpa using h
          rw [runRows]
          exact ih _ n hn

/-- C8 counterexample: for the batch `[A, "", C]` where the middle address is
the EMPTY STRING (not NaN), the middle row does not short-circuit to
`no_address`: the pipeline is consulted — the rate-limit sleep runs and the
three adapters are invoked — and the row's status is the pipeline's
`not_found`, not `no_address`. -/
theorem C8_counterexample :
    ([some addrA, some ([] : Str), some addrB] :
      List (Option Str)).get? 1 = some (some ([] : Str)) ∧
    (geocode_dataframe envNF st0 [some addrA, some ([] : Str), some addrB]
        false 0).1.get? 1 =
      some ⟨Status.not_found, Precision.failed, none, none, none⟩ ∧
    Status.not_found ≠ Status.no_address ∧
    (geocode_dataframe envNF st0 [some addrA, some ([] : Str), some addrB]
        false 0).2.2.get? 1 =
      some ⟨true, [Source.arcgis, Source.nominatim, Source.photon]⟩ := by
  decide

/-- C8 (amended): the batch produces one result per input row in input order;
every row whose address is ABSENT (`pd.isna`: missing/NaN) short-circuits
to a `no_address`/`failed` row without consulting the pipeline (no state
change, no sleep, no adapter call); empty-string addresses, by contrast,
are passed to the pipeline.  For `[A, missing, C]` the output is
`[result(A), no_address, result(C)]`, with C resolved from the state A
left behind. -/
theorem C8_row_order (env : Env) (st : St) (rows : List (Option Str))
    (tm : Bool) (tl : Nat) (i : Nat)
    (hi : (if tm then rows.take tl else rows).get? i = some none)
    (A C : Str) :
    (geocode_dataframe env st rows tm tl).1.length =
      (if tm then rows.take tl else rows).length ∧
    (geocode_dataframe env st rows tm tl).2.2.length =
      (if tm then rows.take tl else rows).length ∧
    (geocode_dataframe env st rows tm tl).1.get? i = some noAddressRow ∧
    (geocode_dataframe env st rows tm tl).2.2.get? i = some ⟨false, []⟩ ∧
    (geocode_dataframe env st [some A, none, some C] false 0).1 =
      [rowOf (geocode_address env st A).1, noAddressRow,
       rowOf (geocode_address env (geocode_address env st A).2.1 C).1] := by
  refine ⟨?_, ?_, ?_, ?_, ?_⟩
  · exact (runRows_length env _ st).1
  · exact (runRows_length env _ st).2
  · exact (runRows_none_get env _ st i hi).1
  · exact (runRows_none_get env _ st i hi).2
  · rfl

/-- Witness for the amended C8 on the batch `[A, missing, C]`. -/
theorem C8_row_order_witness :
    (([some addrA, none, some addrB] : List (Option Str)).get? 1 =
      some none) ∧
    ((geocode_dataframe envNF st0 [some addrA, none, some addrB]
        false 0).1.length =
      (if false then ([some addrA, none, some addrB] :
        List (Option Str)).take 0 else [some addrA, none, some addrB]).length ∧
     (geocode_dataframe envNF st0 [some addrA, none, some addrB]
        false 0).2.2.length =
      (if false then ([some addrA, none, some addrB] :
        List (Option Str)).take 0 else [some addrA, none, some addrB]).length ∧
     (geocode_dataframe envNF st0 [some addrA, none, some addrB]
        false 0).1.get? 1 = some noAddressRow ∧
     (geocode_dataframe envNF st0 [some addrA, none, some addrB]
        false 0).2.2.get? 1 = some ⟨false, []⟩ ∧
     (geocode_dataframe envNF st0 [some addrA, none, some addrB]
        false 0).1 =
      [rowOf (geocode_address envNF st0 addrA).1, noAddressRow,
       rowOf (geocode_address envNF
         (geocode_address envNF st0 addrA).2.1 addrB).1]) :=
  ⟨rfl, C8_row_order envNF st0 [some addrA, none, some addrB] false 0 1 rfl
    addrA addrB⟩

/-! ## City extraction (C9) -/

theorem splitChar_no {c : Char} :
    ∀ (s : Str), c ∉ s → splitChar c s = [s] := by
  intro s
  induction s with
  | nil => intro _; rfl
  | cons x xs ih =>
      intro h
      have hne : ¬ (x = c) := fun he => h (List.mem_cons.2 (Or.inl he.symm))
      have hnm : c ∉ xs := fun hm => h (List.mem_cons.2 (Or.inr hm))
      rw [splitChar, if_neg hne, ih hnm]

theorem splitChar_append {c : Char} (ys : Str) :
    ∀ (xs : Str), c ∉ xs →
      splitChar c (xs ++ c :: ys) = xs :: splitChar c ys := by
  intro xs
  induction xs with
  | nil =>
      intro _
      rw [List.nil_append, splitChar, if_pos rfl]
  | cons x xs' ih =>
      intro h
      have hne : ¬ (x = c) := fun he => h (List.mem_cons.2 (Or.inl he.symm))
      have hnm : c ∉ xs' := fun hm => h (List.mem_cons.2 (Or.inr hm))
      rw [List.cons_append, splitChar, if_neg hne, ih hnm]

theorem isPrefixOf_append_self (p t : Str) : p.isPrefixOf (p ++ t) = true := by
  rw [List.isPrefixOf_iff_prefix]
  exact List.prefix_append p t

/-- The text before the first occurrence of `pat` in `a ++ pat ++ b` is `a`,
provided no occurrence starts inside `a`. -/
theorem takeBefore_append {pat b : Str} (hpat : pat ≠ []) :
    ∀ (a : Str),
      (∀ i, i < a.length →
        pat.isPrefixOf ((a ++ pat ++ b).drop i) = false) →
      takeBefore pat (a ++ pat ++ b) = a := by
  intro a
  induction a with
  | nil =>
      intro _
      cases pat with
      | nil => exact absurd rfl hpat
      | cons p0 ps =>
          rw [List.nil_append]
          show takeBefore (p0 :: ps) (p0 :: (ps ++ b)) = []
          rw [takeBefore, if_pos]
          exact isPrefixOf_append_self (p0 :: ps) b
  | cons x a' ih =>
      intro h
      have h0 := h 0 (by simp)
      rw [List.drop_zero, List.cons_append, List.cons_append] at h0
      show takeBefore pat (x :: (a' ++ pat ++ b)) = x :: a'
      have hcond : ¬ (pat.isPrefixOf (x :: (a' ++ pat ++ b)) = true) := by
        intro hp
        rw [h0] at hp
        exact Bool.noConfusion hp
      rw [takeBefore, if_neg hcond]
      have ih' := ih (fun i hi => by
        have hstep := h (i + 1) (by simp; omega)
        rwa [List.cons_append, List.cons_append, List.drop_succ_cons]
          at hstep)
      rw [ih']

/-- Appending does not disturb a list that `dropWhile` already leaves
whole. -/
theorem dropWhile_eq_self_append {l : Str} (hne : l ≠ [])
    (h : l.dropWhile isWS = l) (t : Str) :
    (l ++ t).dropWhile isWS = l ++ t := by
  cases l with
  | nil => exact absurd rfl hne
  | cons c0 cs =>
      have hc0 : ¬ (isWS c0 = true) := by
        intro hws
        rw [List.dropWhile_cons_of_pos hws] at h
        have hlen := congrArg List.length h
        have hle : (cs.dropWhile isWS).length ≤ cs.length :=
          (List.dropWhile_sublist isWS).length_le
        rw [List.length_cons] at hlen
        omega
      rw [List.cons_append, List.dropWhile_cons_of_neg hc0]

theorem pyStrip_eq_self {l : Str} (h1 : l.dropWhile isWS = l)
    (h2 : l.reverse.dropWhile isWS = l.reverse) : pyStrip l = l := by
  unfold pyStrip
  rw [h1, h2, List.reverse_reverse]

/-- Stripping the raw second comma field `" City MI Zip"` yields
`"City MI Zip"` when the city has no leading and the zip no trailing
whitespace. -/
theorem pyStrip_field {city zipc : Str} (hcne : city ≠ [])
    (hc1 : city.dropWhile isWS = city) (hzne : zipc ≠ [])
    (hz2 : zipc.reverse.dropWhile isWS = zipc.reverse) :
    pyStrip (' ' :: (city ++ miSep ++ zipc)) = city ++ miSep ++ zipc := by
  unfold pyStrip
  rw [List.dropWhile_cons_of_pos (by decide : isWS ' ' = true)]
  rw [List.append_assoc, dropWhile_eq_self_append hcne hc1,
    List.reverse_append, List.reverse_append, List.append_assoc,
    dropWhile_eq_self_append (by rw [Ne, List.reverse_eq_nil_iff]; exact hzne)
      hz2]
  simp [List.reverse_append, List.append_assoc]

/-- C9: `_extract_city` recovers exactly the city of a well-formed address
`Street, City MI Zip` (comma-free street, comma-free unpadded nonempty city
and zip, no earlier occurrence of the regional marker); it returns `None`
for an address without a comma; and in general it returns the stripped text
before the first regional marker of the stripped second comma field. -/
theorem C9_extract_city (street city zipc addr1 addr2 p0 p1 : Str)
    (rest : List Str)
    (hs : ',' ∉ street) (hc : ',' ∉ city) (hz : ',' ∉ zipc)
    (hcne : city ≠ []) (hc1 : city.dropWhile isWS = city)
    (hc2 : city.reverse.dropWhile isWS = city.reverse)
    (hzne : zipc ≠ []) (hz2 : zipc.reverse.dropWhile isWS = zipc.reverse)
    (hmi : ∀ i, i < city.length →
      miSep.isPrefixOf ((city ++ miSep ++ zipc).drop i) = false)
    (hna : ',' ∉ addr1)
    (hsp : splitChar ',' addr2 = p0 :: p1 :: rest) :
    extract_city (street ++ ',' :: ' ' :: (city ++ miSep ++ zipc)) =
      some city ∧
    extract_city addr1 = none ∧
    extract_city addr2 = some (pyStrip (takeBefore miSep (pyStrip p1))) := by
  refine ⟨?_, ?_, ?_⟩
  · have hys : ',' ∉ ' ' :: (city ++ miSep ++ zipc) := by
      intro hmem
      rcases List.mem_cons.1 hmem with h' | h'
      · exact absurd h' (by decide)
      · rcases List.mem_append.1 h' with h'' | h''
        · rcases List.mem_append.1 h'' with h3 | h3
          · exact hc h3
          · exact absurd h3 (by decide)
        · exact hz h''
    unfold extract_city
    rw [splitChar_append _ street hs, splitChar_no _ hys]
    show some (pyStrip (takeBefore miSep
      (pyStrip (' ' :: (city ++ miSep ++ zipc))))) = some city
    rw [pyStrip_field hcne hc1 hzne hz2,
      takeBefore_append (by decide) city hmi, pyStrip_eq_self hc1 hc2]
  · unfold extract_city
    rw [splitChar_no _ hna]
  · unfold extract_city
    rw [hsp]

/-- Witness for C9 on the sample address `123 Main St, Lansing MI 48933`. -/
theorem C9_extract_city_witness :
    ((',' ∉ ("123 Main St").data) ∧ (',' ∉ ("Lansing").data) ∧
     (',' ∉ ("48933").data) ∧ ("Lansing").data ≠ [] ∧
     (("Lansing").data.dropWhile isWS = ("Lansing").data) ∧
     (∀ i, i < ("Lansing").data.length →
       miSep.isPrefixOf
         ((("Lansing").data ++ miSep ++ ("48933").data).drop i) = false) ∧
     (',' ∉ addrX) ∧
     splitChar ',' addrA = [("123 Main St").data, (" Lansing MI 48933").data])
    ∧
    (extract_city (("123 Main St").data ++ ',' :: ' ' ::
        (("Lansing").data ++ miSep ++ ("48933").data)) =
      some (("Lansing").data) ∧
     extract_city addrX = none ∧
     extract_city addrA =
       some (pyStrip (takeBefore miSep (pyStrip ((" Lansing MI 48933").data)))))
    :=
  ⟨⟨by decide, by decide, by decide, by decide, by decide, by decide,
    by decide, by decide⟩,
   C9_extract_city ("123 Main St").data ("Lansing").data ("48933").data
     addrX addrA ("123 Main St").data (" Lansing MI 48933").data []
     (by decide) (by decide) (by decide) (by decide) (by decide) (by decide)
     (by decide) (by decide) (by decide) (by decide) (by decide)⟩

end CraMap
